import Mathlib

/-!
Verification of the run-value-added analytics pipeline
(`src/data_loader.py`, `src/analyze.py`) against its specification.

The dataframes of the source are embedded as Lean lists of structure
values.  Numeric event columns that the schema documents as non-nullable
(`dangerous`, `targeted`, `xthreat`, `xpass_completion`,
`n_simultaneous_runs`) are plain rationals; nullable columns
(`lead_to_shot`, `pass_outcome`, `separation_gain`, id columns that can
be missing) are `Option`-valued, with `none` playing the role of the
pandas null.  Schema-level facts (presence or absence of a column) are
carried by an explicit column-name list alongside the rows.
-/

/-- One tracking sample: one (player, frame) row of the enriched tracking
table produced by `load_match_data`. -/
structure TrackingRow where
  player_id : Int
  frame : Int
  team_id : Int
deriving DecidableEq, Repr

/-- One row of the dynamic-events table.  `parent_possession_id` models the
column of the same name that `link_runs_to_possessions` and
`analyze_run_characteristics` assign from
`associated_player_possession_event_id`. -/
structure EventRow where
  event_id : Int
  event_type : String
  frame_end : Int
  player_id : Option Int
  team_id : Option Int
  player_in_possession_id : Option Int
  player_name : String
  dangerous : ℚ
  targeted : ℚ
  xthreat : ℚ
  xpass_completion : ℚ
  n_simultaneous_runs : ℚ
  pass_outcome : Option String
  separation_gain : Option ℚ
  lead_to_shot : Option ℚ
  associated_player_possession_event_id : Option Int
  parent_possession_id : Option Int
deriving DecidableEq, Repr

/-- A default event row; concrete test rows override the relevant fields. -/
def baseEvent : EventRow :=
  { event_id := 0
  , event_type := "passing_option"
  , frame_end := 0
  , player_id := none
  , team_id := none
  , player_in_possession_id := none
  , player_name := "A"
  , dangerous := 0
  , targeted := 0
  , xthreat := 0
  , xpass_completion := 0
  , n_simultaneous_runs := 1
  , pass_outcome := none
  , separation_gain := none
  , lead_to_shot := none
  , associated_player_possession_event_id := none
  , parent_possession_id := none }

/-- One row of the synced table: a tracking row together with the matched
event row (`none` when the left join found no event for that frame) and
the three derived flags. -/
structure SyncedRow where
  tracking : TrackingRow
  event : Option EventRow
  runner : Bool
  ball_carrier : Bool
  tip : Bool
deriving DecidableEq, Repr

/-- Pandas equality of a non-null value against a nullable column: a null
on the right compares as false, never as null. -/
def optEq (a : Int) (b : Option Int) : Bool :=
  match b with
  | some v => a = v
  | none => false

/-- Build one synced row from a tracking row and an optional matched event,
with the flags of `load_match_data` lines 121-123: comparisons against a
missing event row (all event fields null) yield `false`. -/
def mkSyncedRow (t : TrackingRow) (e : Option EventRow) : SyncedRow :=
  { tracking := t
  , event := e
  , runner := match e with | some ev => optEq t.player_id ev.player_id | none => false
  , ball_carrier := match e with | some ev => optEq t.player_id ev.player_in_possession_id | none => false
  , tip := match e with | some ev => optEq t.team_id ev.team_id | none => false }

/-- The synced rows produced from one tracking row: the null-extended row
when no event has `frame_end` equal to its frame, otherwise one row per
matching event. -/
def rowsFor (t : TrackingRow) (events : List EventRow) : List SyncedRow :=
  if (events.filter fun e => e.frame_end = t.frame) = [] then [mkSyncedRow t none]
  else (events.filter fun e => e.frame_end = t.frame).map fun e => mkSyncedRow t (some e)

/-- The sync step of `load_match_data` (lines 114-123): left join of the
enriched tracking rows to the event rows on
`tracking.frame == event.frame_end`, then the three derived flags. -/
def syncedTable (tracking : List TrackingRow) (events : List EventRow) : List SyncedRow :=
  tracking.flatMap fun t => rowsFor t events

lemma tracking_mkSyncedRow (t : TrackingRow) (e : Option EventRow) :
    (mkSyncedRow t e).tracking = t := rfl

lemma mem_rowsFor_tracking (t : TrackingRow) (events : List EventRow) :
    ∀ r ∈ rowsFor t events, r.tracking = t := by
  intro r hr
  unfold rowsFor at hr
  by_cases h : (events.filter fun e => e.frame_end = t.frame) = []
  · rw [if_pos h, List.mem_singleton] at hr
    subst hr; rfl
  · rw [if_neg h] at hr
    obtain ⟨e, _, rfl⟩ := List.mem_map.mp hr; rfl

lemma rowsFor_ne_nil (t : TrackingRow) (events : List EventRow) :
    rowsFor t events ≠ [] := by
  unfold rowsFor
  by_cases h : (events.filter fun e => e.frame_end = t.frame) = []
  · rw [if_pos h]; simp
  · rw [if_neg h]
    simpa using h

lemma countP_rowsFor (t : TrackingRow) (events : List EventRow) (F : Int)
    (hN : 0 < events.countP fun e => e.frame_end = F) :
    (rowsFor t events).countP (fun r => r.tracking.frame = F)
      = if t.frame = F then events.countP (fun e => e.frame_end = F) else 0 := by
  unfold rowsFor
  by_cases h : (events.filter fun e => e.frame_end = t.frame) = []
  · have hzero : events.countP (fun e => e.frame_end = t.frame) = 0 := by
      rw [List.countP_eq_length_filter, h]
      rfl
    have hne : ¬ t.frame = F := by
      intro hEq
      rw [hEq] at hzero
      omega
    rw [if_pos h, if_neg hne]
    simp [mkSyncedRow, hne]
  · rw [if_neg h, List.countP_map]
    by_cases hEq : t.frame = F
    · rw [if_pos hEq]
      have hconst : ((fun r : SyncedRow => decide (r.tracking.frame = F)) ∘
          fun e => mkSyncedRow t (some e)) = fun _ => true := by
        funext e; simp [mkSyncedRow, hEq]
      rw [hconst, List.countP_true, hEq, List.countP_eq_length_filter]
    · rw [if_neg hEq]
      have hconst : ((fun r : SyncedRow => decide (r.tracking.frame = F)) ∘
          fun e => mkSyncedRow t (some e)) = fun _ => false := by
        funext e; simp [mkSyncedRow, hEq]
      rw [hconst, List.countP_false]
      rfl

/-- C3: the sync step is a left join of tracking rows to event rows on
tracking.frame == event.frame_end: every tracking row appears in the
output, a tracking row whose frame matches no event frame_end appears
null-extended, and a frame F carried by P tracking rows that matches N
event rows (N positive) yields exactly N*P synced rows, with no
deduplication or priority resolution. -/
theorem sync_left_join_fanout (tracking : List TrackingRow) (events : List EventRow) :
    (∀ t ∈ tracking, ∃ r ∈ syncedTable tracking events, r.tracking = t) ∧
    (∀ t ∈ tracking, events.countP (fun e => e.frame_end = t.frame) = 0 →
      mkSyncedRow t none ∈ syncedTable tracking events) ∧
    (∀ F : Int, 0 < events.countP (fun e => e.frame_end = F) →
      (syncedTable tracking events).countP (fun r => r.tracking.frame = F)
        = events.countP (fun e => e.frame_end = F) * tracking.countP (fun t => t.frame = F)) := by
  refine ⟨?_, ?_, ?_⟩
  · intro t ht
    obtain ⟨r, hr⟩ := List.exists_mem_of_ne_nil _ (rowsFor_ne_nil t events)
    exact ⟨r, List.mem_flatMap.mpr ⟨t, ht, hr⟩, mem_rowsFor_tracking t events r hr⟩
  · intro t ht h0
    have hfil : (events.filter fun e => e.frame_end = t.frame) = [] := by
      rw [List.countP_eq_length_filter] at h0
      exact List.length_eq_zero.mp h0
    refine List.mem_flatMap.mpr ⟨t, ht, ?_⟩
    unfold rowsFor
    rw [if_pos hfil]
    exact List.mem_singleton.mpr rfl
  · intro F hN
    induction tracking with
    | nil => simp [syncedTable]
    | cons t ts ih =>
      have hstep : syncedTable (t :: ts) events
          = rowsFor t events ++ syncedTable ts events := by
        simp [syncedTable]
      rw [hstep, List.countP_append, ih, countP_rowsFor t events F hN,
        List.countP_cons]
      by_cases hEq : t.frame = F
      · simp only [hEq, if_true]
        simp
        ring
      · simp [hEq]

/-- C10: the three derived flags of the synced table are definite booleans
(the embedding types them Bool), and comparisons against null yield
false: a row with no matched event has runner, ball_carrier and tip
all false, and a matched event whose compared field is null also yields
false for the corresponding flag. -/
theorem sync_flags_null_safe (tracking : List TrackingRow) (events : List EventRow)
    (r : SyncedRow) (hr : r ∈ syncedTable tracking events) :
    (r.event = none → r.runner = false ∧ r.ball_carrier = false ∧ r.tip = false) ∧
    (∀ e, r.event = some e → e.player_id = none → r.runner = false) ∧
    (∀ e, r.event = some e → e.player_in_possession_id = none → r.ball_carrier = false) ∧
    (∀ e, r.event = some e → e.team_id = none → r.tip = false) := by
  obtain ⟨t, _, hrf⟩ := List.mem_flatMap.mp hr
  unfold rowsFor at hrf
  by_cases h : (events.filter fun e => e.frame_end = t.frame) = []
  · rw [if_pos h, List.mem_singleton] at hrf
    subst hrf
    refine ⟨fun _ => ⟨rfl, rfl, rfl⟩, ?_, ?_, ?_⟩ <;>
      · intro e he
        simp [mkSyncedRow] at he
  · rw [if_neg h] at hrf
    obtain ⟨e, _, rfl⟩ := List.mem_map.mp hrf
    refine ⟨fun hc => by simp [mkSyncedRow] at hc, ?_, ?_, ?_⟩ <;>
      · intro e2 he2 hnone
        simp only [mkSyncedRow, Option.some.injEq] at he2
        subst he2
        simp [mkSyncedRow, optEq, hnone]

/-- One roster row of the players table, restricted to the participation
window fields that `load_match_data` lines 53-61 read.  A time is the
(hours, minutes, seconds) triple parsed from the HH:MM:SS string; a null
time is `none`. -/
structure RosterEntry where
  start_time : Option (Nat × Nat × Nat)
  end_time : Option (Nat × Nat × Nat)
deriving DecidableEq, Repr

/-- `time_to_seconds` of `load_match_data` lines 55-59: a null time maps to
90*60 seconds, an HH:MM:SS triple to its total seconds. -/
def time_to_seconds : Option (Nat × Nat × Nat) → Int
  | none => 90 * 60
  | some (h, m, s) => (h : Int) * 3600 + (m : Int) * 60 + (s : Int)

/-- The roster filter of line 53: a row with null start AND null end is
dropped; every other row is kept. -/
def filterRoster (l : List RosterEntry) : List RosterEntry :=
  l.filter fun p => ¬(p.start_time = none ∧ p.end_time = none)

/-- `total_time` of line 61: end seconds minus start seconds. -/
def total_time (p : RosterEntry) : Int :=
  time_to_seconds p.end_time - time_to_seconds p.start_time

/-- C9: for every roster entry kept after filtering, total_time is
end_seconds minus start_seconds with a null end time converted to 90*60 =
5400 seconds, so a kept player with start time t and null end time gets
total_time = 5400 - seconds(t); the computation is total (never raises). -/
theorem roster_total_time_null_end (roster : List RosterEntry) (p : RosterEntry)
    (hp : p ∈ filterRoster roster) :
    (total_time p = time_to_seconds p.end_time - time_to_seconds p.start_time) ∧
    (p.end_time = none → ∃ t, p.start_time = some t ∧
      total_time p = 5400 - time_to_seconds (some t)) := by
  refine ⟨rfl, fun hend => ?_⟩
  have hkeep := (List.mem_filter.mp hp).2
  cases hstart : p.start_time with
  | none =>
    exfalso
    simp [hstart, hend] at hkeep
  | some t =>
    refine ⟨t, rfl, ?_⟩
    have : time_to_seconds p.end_time = 5400 := by rw [hend]; rfl
    rw [total_time, this, hstart]

/-- Witness for C9 at a concrete roster: a player starting at 00:10:00 with a
null end time has total_time 5400 - 600 seconds. -/
theorem roster_total_time_null_end_witness :
    ∃ t, (RosterEntry.mk (some (0, 10, 0)) none).start_time = some t ∧
      total_time (RosterEntry.mk (some (0, 10, 0)) none) = 5400 - time_to_seconds (some t) :=
  (roster_total_time_null_end [RosterEntry.mk (some (0, 10, 0)) none]
    (RosterEntry.mk (some (0, 10, 0)) none)
    (by simp [filterRoster])).2 rfl

/-- The pandas fillna on one nullable rational cell. -/
def fillna (x : Option ℚ) (d : ℚ) : ℚ := x.getD d

/-- Subtraction whose left operand is nullable: a null left operand
propagates (NaN minus anything is NaN), mirroring the pandas column
subtraction of analyze.py lines 73-76. -/
def subNaN (a : Option ℚ) (b : ℚ) : Option ℚ := a.map fun x => x - b

/-- Maximum of a list of rationals (pandas groupby max on a nonempty
group; the empty case is never reached by the grouping). -/
def qListMax : List ℚ → ℚ
  | [] => 0
  | x :: xs => xs.foldl max x

/-- The per-possession aggregate block of analyze.py lines 53-62, in the
renamed-column order. -/
structure PossAgg where
  n_dangerous_runs : ℚ
  any_dangerous_run : ℚ
  avg_xthreat : ℚ
  max_xthreat : ℚ
  total_xthreat : ℚ
  n_targeted_runs : ℚ
  n_total_runs : ℚ
deriving DecidableEq, Repr

/-- The aggregation dict of `link_runs_to_possessions` lines 53-58 applied
to one group: sum and max of dangerous, mean, max and sum of xthreat, sum
of targeted, and count of player_name (non-null in the schema, hence the
row count of the group). -/
def statsFor (g : List EventRow) : PossAgg :=
  { n_dangerous_runs := (g.map EventRow.dangerous).sum
  , any_dangerous_run := qListMax (g.map EventRow.dangerous)
  , avg_xthreat := (g.map EventRow.xthreat).sum / (g.length : ℚ)
  , max_xthreat := qListMax (g.map EventRow.xthreat)
  , total_xthreat := (g.map EventRow.xthreat).sum
  , n_targeted_runs := (g.map EventRow.targeted).sum
  , n_total_runs := (g.length : ℚ) }

/-- The distinct grouping keys of the groupby on parent_possession_id;
rows with a null key are dropped, as pandas groupby does. -/
def parentIds (runs : List EventRow) : List Int :=
  (runs.filterMap EventRow.parent_possession_id).dedup

/-- `run_summary` of lines 53-62: one (possession_id, aggregates) row per
distinct non-null parent_possession_id. -/
def run_summary (runs : List EventRow) : List (Int × PossAgg) :=
  (parentIds runs).map fun pid =>
    (pid, statsFor (runs.filter fun r => r.parent_possession_id = some pid))

/-- The left merge of lines 65-70 keyed on event_id == possession_id: the
grouping keys are distinct, so at most one summary row matches. -/
def lookupAgg (s : List (Int × PossAgg)) (eid : Int) : Option PossAgg :=
  (s.find? fun x => x.1 = eid).map Prod.snd

/-- One output row of `link_runs_to_possessions`: the possession row, the
merged aggregate block (null when the left merge found no summary row)
and the derived n_untargeted_dangerous column. -/
structure PossWithRuns where
  poss : EventRow
  agg : Option PossAgg
  n_untargeted_dangerous : Option ℚ
deriving DecidableEq, Repr

/-- Build one output row; lines 73-76: n_untargeted_dangerous is
n_dangerous_runs minus fillna(n_targeted_runs, 0), with the null of
n_dangerous_runs propagating. -/
def mkPossWithRuns (p : EventRow) (a : Option PossAgg) : PossWithRuns :=
  { poss := p
  , agg := a
  , n_untargeted_dangerous :=
      subNaN (a.map PossAgg.n_dangerous_runs) (fillna (a.map PossAgg.n_targeted_runs) 0) }

/-- The row-level work of `link_runs_to_possessions` once the linking
column exists: aggregate the runs per parent possession and left-merge
onto the possessions. -/
def linkRunsCore (possessions runs : List EventRow) : List PossWithRuns :=
  possessions.map fun p => mkPossWithRuns p (lookupAgg (run_summary runs) p.event_id)

/-- A dataframe together with its column-name list; the rows carry every
field of the embedding, the column list records which columns the
original frame actually has. -/
structure EventTable where
  cols : List String
  rows : List EventRow
deriving DecidableEq, Repr

/-- The linking column required by `link_runs_to_possessions` line 44. -/
def assocCol : String := "associated_player_possession_event_id"

/-- Substring test on character lists, used to model
columns.str.contains. -/
def isSubstrChars (pat : List Char) : List Char → Bool
  | [] => pat.isEmpty
  | c :: rest => pat.isPrefixOf (c :: rest) || isSubstrChars pat rest

/-- String containment test, modelling pandas str.contains with a plain
pattern. -/
def strContains (hay pat : String) : Bool := isSubstrChars pat.toList hay.toList

/-- The column assignment of line 50 on one row: parent_possession_id is
set from associated_player_possession_event_id. -/
def setParent (r : EventRow) : EventRow :=
  { r with parent_possession_id := r.associated_player_possession_event_id }

/-- The in-place column assignment of line 50 at table level: every row
gets the parent column value, and the column list gains
parent_possession_id when absent. -/
def addParentCol (t : EventTable) : EventTable :=
  { cols := if "parent_possession_id" ∈ t.cols then t.cols else t.cols ++ ["parent_possession_id"]
  , rows := t.rows.map setParent }

/-- The result of `link_runs_to_possessions`: either the diagnostic and
the untouched possession table (linking column absent, lines 44-47), or
the enriched possession rows. -/
inductive LinkOutput where
  | unlinked (diag : List String) (possessions : EventTable) : LinkOutput
  | linked (rows : List PossWithRuns) : LinkOutput
deriving DecidableEq, Repr

/-- `link_runs_to_possessions` (analyze.py lines 29-79) with explicit
argument post-states: the triple holds the returned value, the final
state of the possessions argument, and the final state of the
passing_options argument (the source assigns the parent_possession_id
column on the passing_options dataframe in place before grouping). -/
def link_runs_to_possessions (possessions passing_options : EventTable) :
    LinkOutput × EventTable × EventTable :=
  if assocCol ∈ passing_options.cols then
    (LinkOutput.linked (linkRunsCore possessions.rows (addParentCol passing_options).rows),
     possessions, addParentCol passing_options)
  else
    (LinkOutput.unlinked (passing_options.cols.filter fun c => strContains c "event_id") possessions,
     possessions, passing_options)

/-- The runs linked to one possession by the foreign key column. -/
def linkedRuns (runs : List EventRow) (eid : Int) : List EventRow :=
  runs.filter fun r => r.associated_player_possession_event_id = some eid

lemma find_pair_map (l : List Int) (f : Int → PossAgg) (eid : Int) (h : eid ∈ l) :
    ((l.map fun pid => (pid, f pid)).find? fun x => x.1 = eid) = some (eid, f eid) := by
  induction l with
  | nil => cases h
  | cons a as ih =>
    rw [List.map_cons]
    by_cases ha : a = eid
    · subst ha
      exact List.find?_cons_of_pos _ (by simp)
    · rw [List.find?_cons_of_neg _ (by simp [ha])]
      exact ih (by
        rcases List.mem_cons.mp h with h1 | h2
        · exact absurd h1.symm ha
        · exact h2)

lemma mem_parentIds (runs : List EventRow) (eid : Int)
    (h : ∃ r ∈ runs, r.parent_possession_id = some eid) : eid ∈ parentIds runs := by
  unfold parentIds
  rw [List.mem_dedup, List.mem_filterMap]
  exact h

lemma lookupAgg_run_summary (runs : List EventRow) (eid : Int)
    (h : ∃ r ∈ runs, r.parent_possession_id = some eid) :
    lookupAgg (run_summary runs) eid
      = some (statsFor (runs.filter fun r => r.parent_possession_id = some eid)) := by
  unfold lookupAgg run_summary
  rw [find_pair_map _ _ _ (mem_parentIds runs eid h)]
  rfl

lemma filter_parent_setParent (rows : List EventRow) (eid : Int) :
    ((rows.map setParent).filter fun r => r.parent_possession_id = some eid)
      = (rows.filter fun r => r.associated_player_possession_event_id = some eid).map setParent := by
  induction rows with
  | nil => rfl
  | cons r rs ih =>
    rw [List.map_cons]
    by_cases h : r.associated_player_possession_event_id = some eid
    · rw [List.filter_cons_of_pos (by simp [setParent, h]),
        List.filter_cons_of_pos (by simp [h]), List.map_cons, ih]
    · rw [List.filter_cons_of_neg (by simp [setParent, h]),
        List.filter_cons_of_neg (by simp [h]), ih]

lemma statsFor_map_setParent (g : List EventRow) :
    statsFor (g.map setParent) = statsFor g := by
  have hd : (g.map setParent).map EventRow.dangerous = g.map EventRow.dangerous := by
    rw [List.map_map]
    exact List.map_congr_left fun a _ => rfl
  have hx : (g.map setParent).map EventRow.xthreat = g.map EventRow.xthreat := by
    rw [List.map_map]
    exact List.map_congr_left fun a _ => rfl
  have ht : (g.map setParent).map EventRow.targeted = g.map EventRow.targeted := by
    rw [List.map_map]
    exact List.map_congr_left fun a _ => rfl
  unfold statsFor
  rw [hd, hx, ht, List.length_map]

/-- Concrete possession for the aggregation instance of C4. -/
def pC4 : EventRow :=
  { baseEvent with event_type := "player_possession", event_id := 100 }

/-- Concrete run with dangerous 1, targeted 1 linked to pC4. -/
def rC4a : EventRow :=
  { baseEvent with
    event_id := 201
    dangerous := 1
    targeted := 1
    associated_player_possession_event_id := some 100 }

/-- Concrete run with dangerous 1, targeted 0 linked to pC4. -/
def rC4b : EventRow :=
  { baseEvent with
    event_id := 202
    dangerous := 1
    targeted := 0
    associated_player_possession_event_id := some 100 }

/-- Concrete run with dangerous 0, targeted 0 linked to pC4. -/
def rC4c : EventRow :=
  { baseEvent with
    event_id := 203
    dangerous := 0
    targeted := 0
    associated_player_possession_event_id := some 100 }

/-- Concrete possession table for the C4 instance. -/
def PT4 : EventTable := { cols := ["event_id"], rows := [pC4] }

/-- Concrete passing-option table for the C4 instance. -/
def RT4 : EventTable := { cols := [assocCol], rows := [rC4a, rC4b, rC4c] }

/-- C4: for every possession and the passing options linked to it by
associated_player_possession_event_id, the enriched row carries the sum
and max of dangerous, the mean, max and sum of xthreat, the sum of
targeted, and the row count; in particular dangerous (1,1,0) and
targeted (1,0,0) give n_dangerous_runs 2, n_targeted_runs 1 and
n_untargeted_dangerous 1. -/
theorem link_runs_aggregation :
    (∀ (possessions passing_options : EventTable) (p : EventRow),
      assocCol ∈ passing_options.cols → p ∈ possessions.rows →
      linkedRuns passing_options.rows p.event_id ≠ [] →
      ∃ rows, (link_runs_to_possessions possessions passing_options).1 = LinkOutput.linked rows ∧
        ∃ out ∈ rows, out.poss = p ∧
          out.agg = some
            { n_dangerous_runs :=
                ((linkedRuns passing_options.rows p.event_id).map EventRow.dangerous).sum
            , any_dangerous_run :=
                qListMax ((linkedRuns passing_options.rows p.event_id).map EventRow.dangerous)
            , avg_xthreat :=
                ((linkedRuns passing_options.rows p.event_id).map EventRow.xthreat).sum
                  / ((linkedRuns passing_options.rows p.event_id).length : ℚ)
            , max_xthreat :=
                qListMax ((linkedRuns passing_options.rows p.event_id).map EventRow.xthreat)
            , total_xthreat :=
                ((linkedRuns passing_options.rows p.event_id).map EventRow.xthreat).sum
            , n_targeted_runs :=
                ((linkedRuns passing_options.rows p.event_id).map EventRow.targeted).sum
            , n_total_runs := ((linkedRuns passing_options.rows p.event_id).length : ℚ) }) ∧
    (link_runs_to_possessions PT4 RT4).1
      = LinkOutput.linked
          [{ poss := pC4
           , agg := some
               { n_dangerous_runs := 2, any_dangerous_run := 1, avg_xthreat := 0
               , max_xthreat := 0, total_xthreat := 0, n_targeted_runs := 1
               , n_total_runs := 3 }
           , n_untargeted_dangerous := some 1 }] := by
  constructor
  · intro possessions passing_options p hcol hp hne
    have hmem : ∃ r ∈ (addParentCol passing_options).rows,
        r.parent_possession_id = some p.event_id := by
      obtain ⟨r, hr⟩ := List.exists_mem_of_ne_nil _ hne
      have hr2 := List.mem_filter.mp hr
      exact ⟨setParent r, List.mem_map_of_mem setParent hr2.1,
        by simpa [setParent] using hr2.2⟩
    have hlook := lookupAgg_run_summary (addParentCol passing_options).rows p.event_id hmem
    have hfilt := filter_parent_setParent passing_options.rows p.event_id
    refine ⟨linkRunsCore possessions.rows (addParentCol passing_options).rows, ?_, ?_⟩
    · unfold link_runs_to_possessions
      rw [if_pos hcol]
    · refine ⟨mkPossWithRuns p
        (lookupAgg (run_summary (addParentCol passing_options).rows) p.event_id),
        List.mem_map_of_mem _ hp, rfl, ?_⟩
      show lookupAgg (run_summary (addParentCol passing_options).rows) p.event_id = _
      rw [hlook]
      show some (statsFor _) = some (statsFor (linkedRuns passing_options.rows p.event_id))
      rw [show ((addParentCol passing_options).rows.filter
          fun r => r.parent_possession_id = some p.event_id)
          = (linkedRuns passing_options.rows p.event_id).map setParent from hfilt,
        statsFor_map_setParent]
  · have h1 : (link_runs_to_possessions PT4 RT4).1
        = LinkOutput.linked (linkRunsCore [pC4] ([rC4a, rC4b, rC4c].map setParent)) := by
      unfold link_runs_to_possessions
      rw [if_pos (by simp [RT4])]
      rfl
    rw [h1]
    simp only [linkRunsCore, List.map_cons, List.map_nil, run_summary, parentIds,
      List.filterMap, setParent, rC4a, rC4b, rC4c, pC4, baseEvent, lookupAgg,
      mkPossWithRuns, subNaN, fillna, statsFor, qListMax, List.dedup]
    norm_num [List.find?, List.filter, max_def, mkPossWithRuns, subNaN, fillna]

/-- Witness for C4: the aggregation theorem applied to the concrete tables
PT4 and RT4. -/
theorem link_runs_aggregation_witness :
    ∃ rows, (link_runs_to_possessions PT4 RT4).1 = LinkOutput.linked rows ∧
      ∃ out ∈ rows, out.poss = pC4 ∧ out.agg ≠ none := by
  obtain ⟨rows, h1, out, h2, h3, h4⟩ :=
    link_runs_aggregation.1 PT4 RT4 pC4 (by simp [RT4]) (by simp [PT4])
      (by simp [linkedRuns, RT4, rC4a, rC4b, rC4c, pC4, baseEvent])
  exact ⟨rows, h1, out, h2, h3, by rw [h4]; simp⟩

/-- Concrete possession table with no run table columns, for C5. -/
def P5 : EventTable := { cols := ["event_id", "lead_to_shot"], rows := [] }

/-- Concrete passing-option table whose linking column is absent, for
C5: two of its column names contain the substring event_id. -/
def T5 : EventTable :=
  { cols := ["event_id", "player_name", "related_event_id"], rows := [] }

/-- C5: when associated_player_possession_event_id is absent from the
passing_options columns, link_runs_to_possessions does not raise: it
returns the diagnostic of column names containing event_id and the
possession table unchanged, and mutates neither argument. -/
theorem link_missing_column_degrades (possessions passing_options : EventTable)
    (h : assocCol ∉ passing_options.cols) :
    link_runs_to_possessions possessions passing_options
      = (LinkOutput.unlinked
          (passing_options.cols.filter fun c => strContains c "event_id") possessions,
         possessions, passing_options) := by
  unfold link_runs_to_possessions
  rw [if_neg h]

/-- Witness for C5: the degradation theorem applied to the concrete tables
P5 and T5; the diagnostic lists exactly the two column names containing
event_id. -/
theorem link_missing_column_degrades_witness :
    link_runs_to_possessions P5 T5
      = (LinkOutput.unlinked ["event_id", "related_event_id"] P5, P5, T5) := by
  rw [link_missing_column_degrades P5 T5 (by decide)]
  decide

/-- Concrete possession with no linked runs, for C6. -/
def pC6 : EventRow :=
  { baseEvent with event_type := "player_possession", event_id := 7 }

/-- Concrete possession table for C6. -/
def PT6 : EventTable := { cols := ["event_id"], rows := [pC6] }

/-- Concrete passing-option table with the linking column but no rows, for
C6. -/
def RT6 : EventTable := { cols := [assocCol], rows := [] }

/-- Counterexample to C6 as stated: a possession with no linked runs has a
null n_targeted_runs (the whole aggregate block is null), and its
n_untargeted_dangerous comes out null, not a definite number — because
n_dangerous_runs is null on exactly the same rows and the null propagates
through the subtraction. -/
theorem link_untargeted_null_counterexample :
    (link_runs_to_possessions PT6 RT6).1
      = LinkOutput.linked [{ poss := pC6, agg := none, n_untargeted_dangerous := none }] := by
  unfold link_runs_to_possessions
  rw [if_pos (by decide)]
  rfl

/-- C6 amended: n_untargeted_dangerous is always computed as
n_dangerous_runs minus fillna(n_targeted_runs, 0) and the computation is
total (never raises); on rows whose aggregate block is null (null
n_targeted_runs) the result is null because the null n_dangerous_runs
propagates, and on rows with aggregates it is the definite difference. -/
theorem link_untargeted_null_propagates :
    ∀ (possessions runs : List EventRow), ∀ out ∈ linkRunsCore possessions runs,
      out.n_untargeted_dangerous
        = subNaN (out.agg.map PossAgg.n_dangerous_runs)
            (fillna (out.agg.map PossAgg.n_targeted_runs) 0) ∧
      (out.agg = none → out.n_untargeted_dangerous = none) ∧
      (∀ a, out.agg = some a →
        out.n_untargeted_dangerous = some (a.n_dangerous_runs - a.n_targeted_runs)) := by
  intro possessions runs out hout
  obtain ⟨p, hp, rfl⟩ := List.mem_map.mp hout
  refine ⟨rfl, ?_, ?_⟩
  · intro h
    have hx : lookupAgg (run_summary runs) p.event_id = none := h
    show subNaN ((lookupAgg (run_summary runs) p.event_id).map PossAgg.n_dangerous_runs)
      (fillna ((lookupAgg (run_summary runs) p.event_id).map PossAgg.n_targeted_runs) 0) = none
    rw [hx]
    rfl
  · intro a h
    have hx : lookupAgg (run_summary runs) p.event_id = some a := h
    show subNaN ((lookupAgg (run_summary runs) p.event_id).map PossAgg.n_dangerous_runs)
      (fillna ((lookupAgg (run_summary runs) p.event_id).map PossAgg.n_targeted_runs) 0)
      = some (a.n_dangerous_runs - a.n_targeted_runs)
    rw [hx]
    rfl

/-- Witness for the amended C6 at a concrete possession with no linked
runs. -/
theorem link_untargeted_null_propagates_witness :
    (mkPossWithRuns pC6 none).n_untargeted_dangerous = none := by
  have hmem : mkPossWithRuns pC6 none ∈ linkRunsCore [pC6] [] := by
    show mkPossWithRuns pC6 none
      ∈ [mkPossWithRuns pC6 (lookupAgg (run_summary []) pC6.event_id)]
    exact List.mem_singleton.mpr rfl
  exact (link_untargeted_null_propagates [pC6] [] _ hmem).2.1 rfl

/-- One row of the merged frame built by `calculate_run_value_added` lines
368-374.  The merge uses suffixes with an empty left suffix, and the run
subset shares the pass_outcome, separation_gain and lead_to_shot columns
with the possession subset (both are row subsets of the one synced
frame), so the left (run) columns keep their unsuffixed names inside
`run` and the merged possession columns arrive with the _poss suffix.  A
run with no parent match gets null possession columns. -/
structure MergedRun where
  run : EventRow
  pass_outcome_poss : Option String
  separation_gain_poss : Option ℚ
  lead_to_shot_poss : Option ℚ
deriving DecidableEq, Repr

/-- Merge one run row with its parent possession outcomes, keyed on
parent_possession_id == event_id.  Possession event ids are unique in the
source data, so the first match embeds the merge. -/
def mergeRow (possessions : List EventRow) (r : EventRow) : MergedRun :=
  match r.parent_possession_id.bind
      (fun pid => possessions.find? fun p => p.event_id = pid) with
  | some p =>
      { run := r
      , pass_outcome_poss := p.pass_outcome
      , separation_gain_poss := p.separation_gain
      , lead_to_shot_poss := p.lead_to_shot }
  | none =>
      { run := r
      , pass_outcome_poss := none
      , separation_gain_poss := none
      , lead_to_shot_poss := none }

/-- The left merge of `calculate_run_value_added` lines 368-374 over the
whole run table. -/
def mergeWithPossessions (passing_options possessions : List EventRow) : List MergedRun :=
  passing_options.map (mergeRow possessions)

/-- `shot_created` of line 379: the fillna(0) of the unsuffixed
lead_to_shot column, which after the suffixed merge is the lead_to_shot
of the run row itself, not the merged possession column. -/
def shot_created (m : MergedRun) : ℚ := fillna m.run.lead_to_shot 0

/-- The shot_created factor as the specification words it: the
lead_to_shot of the linked parent possession with null treated as 0,
i.e. the suffixed lead_to_shot_poss column.  Stated from the spec for
comparison with `shot_created`, which follows the source. -/
def shot_created_spec (m : MergedRun) : ℚ := fillna m.lead_to_shot_poss 0

/-- One scored passing-option row: the merged row plus the five RVA
component columns and their sum. -/
structure ScoredRun where
  merged : MergedRun
  shot_value : ℚ
  direct_value : ℚ
  progression_value : ℚ
  decoy_penalty : ℚ
  overload_value : ℚ
  RVA : ℚ
deriving DecidableEq, Repr

/-- The per-row scoring of `calculate_run_value_added` lines 381-432:
the five np.where component columns and the total RVA. -/
def scoreRow (m : MergedRun) : ScoredRun :=
  let sv : ℚ :=
    if m.run.dangerous = 1 ∧ m.run.targeted = 1 then m.run.xthreat * shot_created m * 2.5
    else if m.run.dangerous = 1 then m.run.xthreat * shot_created m * 0.3
    else 0
  let dv : ℚ := if m.run.targeted = 1 then m.run.xthreat * m.run.xpass_completion else 0
  let pv : ℚ := if m.run.dangerous = 1 then m.run.xthreat * 0.12 else 0
  let dp : ℚ :=
    if m.run.targeted = 0 ∧ m.run.dangerous = 1 then m.run.xthreat * (-0.25) else 0
  let ov : ℚ :=
    if 1 < m.run.n_simultaneous_runs ∧ m.run.dangerous = 1
    then m.run.xthreat * 0.08 * m.run.n_simultaneous_runs
    else 0
  { merged := m
  , shot_value := sv
  , direct_value := dv
  , progression_value := pv
  , decoy_penalty := dp
  , overload_value := ov
  , RVA := sv + dv + pv + dp + ov }

/-- `calculate_run_value_added` (analyze.py lines 333-434): merge each
passing option with its parent possession outcomes, then compute the five
components and RVA per row. -/
def calculate_run_value_added (passing_options possessions : List EventRow) : List ScoredRun :=
  (mergeWithPossessions passing_options possessions).map scoreRow

/-- `calculate_run_value_added` with explicit argument post-states: the
source writes only to the freshly merged frame, so both arguments are
returned in their initial state. -/
def calculate_run_value_added_full (passing_options possessions : List EventRow) :
    List ScoredRun × List EventRow × List EventRow :=
  (calculate_run_value_added passing_options possessions, passing_options, possessions)

/-- C1: RVA determinism, exact rational arithmetic.  A scored row with
dangerous 1, targeted 1, xthreat 0.2, xpass_completion 0.8, shot_created
1 (the value actually used, the fillna of the unsuffixed lead_to_shot)
and n_simultaneous_runs 1 has components 0.5, 0.16, 0.024, 0, 0 and RVA
0.684; a scored row with dangerous 1, targeted 0, xthreat 0.4,
shot_created 0 and n_simultaneous_runs 3 has components 0, 0, 0.048,
-0.1, 0.096 and RVA 0.044. -/
theorem rva_determinism :
    (∀ (passing_options possessions : List EventRow) (s : ScoredRun),
      s ∈ calculate_run_value_added passing_options possessions →
      s.merged.run.dangerous = 1 → s.merged.run.targeted = 1 →
      s.merged.run.xthreat = 0.2 → s.merged.run.xpass_completion = 0.8 →
      shot_created s.merged = 1 → s.merged.run.n_simultaneous_runs = 1 →
      s.shot_value = 0.5 ∧ s.direct_value = 0.16 ∧ s.progression_value = 0.024 ∧
      s.decoy_penalty = 0 ∧ s.overload_value = 0 ∧ s.RVA = 0.684) ∧
    (∀ (passing_options possessions : List EventRow) (s : ScoredRun),
      s ∈ calculate_run_value_added passing_options possessions →
      s.merged.run.dangerous = 1 → s.merged.run.targeted = 0 →
      s.merged.run.xthreat = 0.4 → shot_created s.merged = 0 →
      s.merged.run.n_simultaneous_runs = 3 →
      s.shot_value = 0 ∧ s.direct_value = 0 ∧ s.progression_value = 0.048 ∧
      s.decoy_penalty = -0.1 ∧ s.overload_value = 0.096 ∧ s.RVA = 0.044) := by
  constructor
  · intro passing_options possessions s hs h1 h2 h3 h4 hsc h5
    obtain ⟨m, hm, rfl⟩ := List.mem_map.mp hs
    simp only [scoreRow] at h1 h2 h3 h4 hsc h5 ⊢
    rw [h1, h2, h3, h4, hsc, h5]
    norm_num
  · intro passing_options possessions s hs h1 h2 h3 hsc h5
    obtain ⟨m, hm, rfl⟩ := List.mem_map.mp hs
    simp only [scoreRow] at h1 h2 h3 hsc h5 ⊢
    rw [h1, h2, h3, hsc, h5]
    norm_num

/-- Concrete targeted dangerous run for the C1 witness. -/
def rW1 : EventRow :=
  { baseEvent with
    event_id := 301
    dangerous := 1
    targeted := 1
    xthreat := 0.2
    xpass_completion := 0.8
    lead_to_shot := some 1
    n_simultaneous_runs := 1 }

/-- Concrete ignored dangerous run for the C1 witness. -/
def rW2 : EventRow :=
  { baseEvent with
    event_id := 302
    dangerous := 1
    targeted := 0
    xthreat := 0.4
    lead_to_shot := some 0
    n_simultaneous_runs := 3 }

/-- The merged row of rW1 (no parent possession). -/
def mW1 : MergedRun :=
  { run := rW1, pass_outcome_poss := none, separation_gain_poss := none
  , lead_to_shot_poss := none }

/-- The merged row of rW2 (no parent possession). -/
def mW2 : MergedRun :=
  { run := rW2, pass_outcome_poss := none, separation_gain_poss := none
  , lead_to_shot_poss := none }

/-- Witness for C1: the determinism theorem applied to the two concrete
scored rows. -/
theorem rva_determinism_witness :
    ((scoreRow mW1).shot_value = 0.5 ∧ (scoreRow mW1).direct_value = 0.16 ∧
      (scoreRow mW1).progression_value = 0.024 ∧ (scoreRow mW1).decoy_penalty = 0 ∧
      (scoreRow mW1).overload_value = 0 ∧ (scoreRow mW1).RVA = 0.684) ∧
    ((scoreRow mW2).shot_value = 0 ∧ (scoreRow mW2).direct_value = 0 ∧
      (scoreRow mW2).progression_value = 0.048 ∧ (scoreRow mW2).decoy_penalty = -0.1 ∧
      (scoreRow mW2).overload_value = 0.096 ∧ (scoreRow mW2).RVA = 0.044) := by
  have hcalc : calculate_run_value_added [rW1, rW2] [] = [scoreRow mW1, scoreRow mW2] := rfl
  have hm1 : scoreRow mW1 ∈ calculate_run_value_added [rW1, rW2] [] := by
    rw [hcalc]; exact List.mem_cons_self _ _
  have hm2 : scoreRow mW2 ∈ calculate_run_value_added [rW1, rW2] [] := by
    rw [hcalc]; exact List.mem_cons_of_mem _ (List.mem_cons_self _ _)
  exact ⟨rva_determinism.1 [rW1, rW2] [] _ hm1 rfl rfl rfl rfl rfl rfl,
    rva_determinism.2 [rW1, rW2] [] _ hm2 rfl rfl rfl rfl rfl⟩

/-- Concrete run whose own lead_to_shot is 0 while its parent possession
led to a shot, for C2. -/
def rCB : EventRow :=
  { baseEvent with
    event_id := 11
    dangerous := 1
    targeted := 1
    xthreat := 0.2
    xpass_completion := 0.8
    lead_to_shot := some 0
    n_simultaneous_runs := 1
    associated_player_possession_event_id := some 100
    parent_possession_id := some 100 }

/-- Concrete parent possession with lead_to_shot 1, for C2. -/
def pCB : EventRow :=
  { baseEvent with
    event_type := "player_possession"
    event_id := 100
    lead_to_shot := some 1 }

/-- C2 (divergence between source and spec): on a run whose own
lead_to_shot is 0 while its merged parent possession has lead_to_shot 1,
the shot_created value the source actually uses is 0 — the unsuffixed
lead_to_shot column is the run row's own, because the suffixes of the
merge keep left columns unsuffixed — whereas the lead_to_shot of the
parent possession, which the spec prescribes (shot_created_spec), is 1,
so the targeted dangerous run scores shot_value 0 instead of
0.2 * 1 * 2.5 = 0.5. -/
theorem shot_created_from_run_column :
    ((mergeWithPossessions [rCB] [pCB]).map shot_created = [0]) ∧
    ((mergeWithPossessions [rCB] [pCB]).map shot_created_spec = [1]) ∧
    ((calculate_run_value_added [rCB] [pCB]).map ScoredRun.shot_value = [0]) ∧
    ((mergeWithPossessions [rCB] [pCB]).map
      (fun m => m.run.xthreat * shot_created_spec m * 2.5) = [0.5]) := by
  have hmerge : mergeWithPossessions [rCB] [pCB]
      = [{ run := rCB, pass_outcome_poss := none, separation_gain_poss := none
         , lead_to_shot_poss := some 1 }] := rfl
  refine ⟨by rw [hmerge]; rfl, by rw [hmerge]; rfl, ?_, ?_⟩
  · show ((mergeWithPossessions [rCB] [pCB]).map scoreRow).map ScoredRun.shot_value = [0]
    rw [hmerge]
    simp only [List.map_cons, List.map_nil, scoreRow, shot_created, fillna, rCB, baseEvent]
    norm_num
  · rw [hmerge]
    simp only [List.map_cons, List.map_nil, shot_created_spec, fillna, rCB, baseEvent]
    norm_num

lemma run_mergeRow (possessions : List EventRow) (r : EventRow) :
    (mergeRow possessions r).run = r := by
  unfold mergeRow
  cases r.parent_possession_id.bind
    (fun pid => possessions.find? fun p => p.event_id = pid) <;> rfl

lemma scored_runs_projection (passing_options possessions : List EventRow) :
    (calculate_run_value_added passing_options possessions).map (fun s => s.merged.run)
      = passing_options := by
  unfold calculate_run_value_added mergeWithPossessions
  rw [List.map_map, List.map_map]
  exact (List.map_congr_left fun r _ => run_mergeRow possessions r).trans
    (List.map_id _)

/-- C7: rescoring an already-scored table reproduces identical component
values.  The scored table still carries every original run column
unchanged (the projection lemma), so feeding the scored rows back through
calculate_run_value_added with the same possessions yields exactly the
same scored rows, pre-existing RVA columns ignored. -/
theorem rva_idempotent (passing_options possessions : List EventRow) :
    calculate_run_value_added
        ((calculate_run_value_added passing_options possessions).map fun s => s.merged.run)
        possessions
      = calculate_run_value_added passing_options possessions := by
  rw [scored_runs_projection]

/-- Concrete possession table for C8. -/
def P8 : EventTable := { cols := ["event_id"], rows := [] }

/-- Concrete passing-option table with the linking column, for C8. -/
def T8 : EventTable := { cols := [assocCol], rows := [] }

/-- Concrete passing-option table without the linking column, for C8. -/
def T8n : EventTable := { cols := ["event_id"], rows := [] }

/-- Counterexample to C8 as stated: link_runs_to_possessions does mutate
its passing_options argument — the parent_possession_id column is
assigned in place (line 50), so the argument's post-state differs from
its input state. -/
theorem link_mutates_passing_options_counterexample :
    (link_runs_to_possessions P8 T8).2.2 ≠ T8 := by decide

/-- C8 amended: the possessions argument is never mutated by
link_runs_to_possessions, and calculate_run_value_added mutates neither
argument (all writes target the freshly merged frame); but
link_runs_to_possessions mutates its passing_options argument exactly by
the in-place parent_possession_id column assignment whenever the linking
column is present, and leaves it untouched otherwise. -/
theorem pipeline_mutation_amended (possessions passing_options : EventTable)
    (runs2 poss2 : List EventRow) :
    (link_runs_to_possessions possessions passing_options).2.1 = possessions ∧
    (assocCol ∈ passing_options.cols →
      (link_runs_to_possessions possessions passing_options).2.2
        = addParentCol passing_options) ∧
    (assocCol ∉ passing_options.cols →
      (link_runs_to_possessions possessions passing_options).2.2 = passing_options) ∧
    (calculate_run_value_added_full runs2 poss2).2.1 = runs2 ∧
    (calculate_run_value_added_full runs2 poss2).2.2 = poss2 := by
  refine ⟨?_, ?_, ?_, rfl, rfl⟩
  · unfold link_runs_to_possessions
    by_cases h : assocCol ∈ passing_options.cols
    · rw [if_pos h]
    · rw [if_neg h]
  · intro h
    unfold link_runs_to_possessions
    rw [if_pos h]
  · intro h
    unfold link_runs_to_possessions
    rw [if_neg h]

/-- Witness for the amended C8 at concrete tables: both branches of the
column check. -/
theorem pipeline_mutation_amended_witness :
    (link_runs_to_possessions P8 T8).2.1 = P8 ∧
    (link_runs_to_possessions P8 T8).2.2 = addParentCol T8 ∧
    (link_runs_to_possessions P8 T8n).2.2 = T8n := by
  exact ⟨(pipeline_mutation_amended P8 T8 [] []).1,
    (pipeline_mutation_amended P8 T8 [] []).2.1 (by decide),
    (pipeline_mutation_amended P8 T8n [] []).2.2.1 (by decide)⟩

/-- Concrete tracking rows for the sync witnesses: two players at frame 5,
one at frame 7. -/
def wTrack : List TrackingRow :=
  [TrackingRow.mk 1 5 10, TrackingRow.mk 2 5 10, TrackingRow.mk 3 7 10]

/-- Concrete event with frame_end 5 for the sync witnesses. -/
def wEvA : EventRow := { baseEvent with event_id := 401, frame_end := 5 }

/-- Second concrete event sharing frame_end 5. -/
def wEvB : EventRow := { baseEvent with event_id := 402, frame_end := 5 }

/-- Concrete event list for the sync witnesses. -/
def wEvents : List EventRow := [wEvA, wEvB]

/-- Witness for C3: two simultaneous events at frame 5 against two players
at that frame give 2*2 synced rows, and the frame-7 row appears
null-extended. -/
theorem sync_left_join_fanout_witness :
    (∃ r ∈ syncedTable wTrack wEvents, r.tracking = TrackingRow.mk 1 5 10) ∧
    mkSyncedRow (TrackingRow.mk 3 7 10) none ∈ syncedTable wTrack wEvents ∧
    (syncedTable wTrack wEvents).countP (fun r => r.tracking.frame = 5) = 2 * 2 := by
  refine ⟨(sync_left_join_fanout wTrack wEvents).1 _ (by simp [wTrack]),
    (sync_left_join_fanout wTrack wEvents).2.1 _ (by simp [wTrack]) (by decide), ?_⟩
  have h := (sync_left_join_fanout wTrack wEvents).2.2 5 (by decide)
  rw [h]
  decide

/-- Witness for C10: the null-extended frame-7 row has all three flags
false. -/
theorem sync_flags_null_safe_witness :
    (mkSyncedRow (TrackingRow.mk 3 7 10) none).runner = false ∧
    (mkSyncedRow (TrackingRow.mk 3 7 10) none).ball_carrier = false ∧
    (mkSyncedRow (TrackingRow.mk 3 7 10) none).tip = false := by
  have hmem : mkSyncedRow (TrackingRow.mk 3 7 10) none ∈ syncedTable wTrack wEvents := by
    refine List.mem_flatMap.mpr ⟨TrackingRow.mk 3 7 10, by simp [wTrack], ?_⟩
    unfold rowsFor
    rw [if_pos (by decide)]
    exact List.mem_singleton.mpr rfl
  exact (sync_flags_null_safe wTrack wEvents _ hmem).1 rfl
